import Mathlib

set_option maxHeartbeats 1000000

/-!
Verification development for the commerce ledger subsystem of Amber-III
(`src/app/models/commerce.py`, `src/app/models/utils/config.py`,
`src/app/models/library.py`).

The repository stores only the declarative ORM schema for this subsystem;
the engine operations (`getOrCreate`, `debit`, `credit`, `rate`, `submit`,
`placeOrder`) are described in the design spec and are modelled here from
the spec's words.  Schema-level facts (column nullability, uniqueness
constraints, relationship cardinality) are transcribed from the source.
-/

/-- Transcribed from `TransactionStatusEnum` in
`src/app/models/utils/config.py` (lines 343-371). -/
inductive TransactionStatusEnum where
  | SUCCESS
  | FAILED
  | CANCELLED
  | PENDING
  | REJECTED
  | EXPIRED
  | REFUNDED
  | PENDING_REFUND
  | REFUNDED_WITH_CREDIT
  | REFUNDED_WITH_DEBIT
deriving DecidableEq, Repr

/-- Transcribed from `OrderStatusEnum` in
`src/app/models/utils/config.py` (lines 321-340). -/
inductive OrderStatusEnum where
  | PENDING
  | COMPLETED
  | CANCELLED
deriving DecidableEq, Repr

/-- A column declaration of the ORM schema: its name, whether it is
nullable and whether it carries a single-column unique flag.  Under
SQLAlchemy 2.0 `mapped_column` semantics a column typed `Mapped[T]` with a
non-`Optional` annotation is NOT NULL unless `nullable=True` is given
explicitly. -/
structure ColumnDecl where
  name : String
  nullable : Bool
  unique : Bool
deriving DecidableEq, Repr

/-- Columns of the `transactions` table, transcribed from the `Transaction`
model (`src/app/models/commerce.py` lines 395-411).  Only `order_id` is
declared `nullable=True`; every other column, `toll_fund` included, has a
non-`Optional` annotation and is therefore NOT NULL. -/
def transactionsColumns : List ColumnDecl :=
  [ ⟨"from_fund_id", false, false⟩
  , ⟨"to_fund_id", false, false⟩
  , ⟨"toll_fund", false, false⟩
  , ⟨"ledger_id", false, false⟩
  , ⟨"order_id", true, false⟩
  , ⟨"currency_id", false, false⟩
  , ⟨"amount", false, false⟩
  , ⟨"fee", false, false⟩
  , ⟨"total_amount", false, false⟩
  , ⟨"status", false, false⟩
  , ⟨"type", false, false⟩
  , ⟨"timestamp", false, false⟩ ]

/-- Columns of the `funds` table, transcribed from the `Fund` model
(`src/app/models/commerce.py` lines 186-188).  Neither `wallet_id` nor
`token_id` carries `unique=True`. -/
def fundsColumns : List ColumnDecl :=
  [ ⟨"wallet_id", false, false⟩
  , ⟨"token_id", false, false⟩
  , ⟨"balance", false, false⟩ ]

/-- Multi-column unique constraints declared on the `funds` table.  The
`Fund` model declares no `__table_args__` and no `UniqueConstraint`
anywhere in `src/app/models/commerce.py`, so the list is empty. -/
def fundsTableUniqueConstraints : List (List String) := []

/-- Nullability of a named column in a column list. -/
def colNullable (cols : List ColumnDecl) (n : String) : Option Bool :=
  (cols.find? (fun c => c.name == n)).map (·.nullable)

/-- Single-column unique flag of a named column in a column list. -/
def colUnique (cols : List ColumnDecl) (n : String) : Option Bool :=
  (cols.find? (fun c => c.name == n)).map (·.unique)

/-- An ORM relationship declaration: owning model, attribute name, target
model, and whether the attribute is annotated as a collection
(`Mapped[List[...]]`) rather than a scalar (`Mapped[...]`). -/
structure RelationshipDecl where
  model : String
  attr : String
  target : String
  collection : Bool
deriving DecidableEq, Repr

/-- Relationship declarations transcribed from `src/app/models/library.py`
(Wallet, lines 713-732) and `src/app/models/commerce.py` (Fund and Ledger).
`Wallet.funds` is annotated `Mapped["Fund"]` - a scalar, not a list. -/
def modelRelationships : List RelationshipDecl :=
  [ ⟨"Wallet", "funds", "Fund", false⟩
  , ⟨"Fund", "wallet", "Wallet", false⟩
  , ⟨"Fund", "token", "Token", false⟩
  , ⟨"Fund", "conversions", "Conversion", true⟩
  , ⟨"Fund", "transactions", "Transaction", true⟩
  , ⟨"Fund", "orders", "Order", true⟩
  , ⟨"Ledger", "tokens", "Token", true⟩
  , ⟨"Ledger", "transactions", "Transaction", true⟩ ]

/-- Look up a relationship declaration by model and attribute name. -/
def findRel (m a : String) : Option RelationshipDecl :=
  modelRelationships.find? (fun r => r.model == m && r.attr == a)

/-- A Wallet row as embedded from the schema: since `Wallet.funds` is a
scalar relationship, the row holds at most one associated Fund id. -/
structure WalletRow where
  wid : Nat
  library_id : Nat
  funds : Option Nat
deriving DecidableEq, Repr

/-- The fund ids associated with a Wallet row. -/
def walletFundIds (w : WalletRow) : List Nat := w.funds.toList

/-- A Fund row: `{id, wallet_id, token_id, balance}` as in the `Fund`
model (`src/app/models/commerce.py` lines 183-193).  The balance is a
fixed-point decimal (`Numeric(20, 4)`); it is embedded exactly as the
integer count of 10^-4 units, as the spec forbids floating point. -/
structure FundRec where
  fid : Nat
  wallet_id : Nat
  token_id : Nat
  balance : Int
deriving DecidableEq, Repr

/-- A Conversion row: a directed rate between two tokens, as in the
`Conversion` model (`src/app/models/commerce.py` lines 336-345).  The
rate is a fixed-point decimal (`Numeric(20, 8)`), embedded as the integer
count of 10^-8 units. -/
structure ConversionRec where
  from_token_id : Nat
  to_token_id : Nat
  rate : Int
deriving DecidableEq, Repr

/-- The fixed-point scale of a Conversion rate: rates carry 8 fractional
digits. -/
def rateScale : Int := 100000000

/-- Error taxonomy of the spec (section 7). -/
inductive EngineError where
  | InsufficientFunds
  | NoConversionPath
  | FundNotFound
  | LedgerNotFound
  | InvalidRequest
deriving DecidableEq, Repr

/-- Find a fund by id. -/
def findFund (fs : List FundRec) (f : Nat) : Option FundRec :=
  fs.find? (fun r => r.fid == f)

/-- Balance of a fund by id, if present. -/
def balOf (fs : List FundRec) (f : Nat) : Option Int :=
  (findFund fs f).map (·.balance)

/-- Token of a fund by id, if present. -/
def tokenOf (fs : List FundRec) (f : Nat) : Option Nat :=
  (findFund fs f).map (·.token_id)

/-- Add `d` to the balance of the fund with id `f`. -/
def updateBal (fs : List FundRec) (f : Nat) (d : Int) : List FundRec :=
  fs.map (fun r => if r.fid == f then { r with balance := r.balance + d } else r)

/-- Modelled from the spec: Fund Store `debit(fund_id, amount)` (section
4.1), which is absent from `src/`.  Atomically subtracts `amount` if
`balance >= amount`, else fails without mutating. -/
def debit (fs : List FundRec) (f : Nat) (a : Int) : Except EngineError (List FundRec) :=
  match findFund fs f with
  | none => .error .FundNotFound
  | some r => if a ≤ r.balance then .ok (updateBal fs f (-a)) else .error .InsufficientFunds

/-- Modelled from the spec: Fund Store `credit(fund_id, amount)` (section
4.1), which is absent from `src/`.  Atomically adds `amount`; cannot
fail. -/
def credit (fs : List FundRec) (f : Nat) (a : Int) : List FundRec :=
  updateBal fs f a

/-- Modelled from the spec: Conversion Resolver `rate(from_token_id,
to_token_id)` (section 4.2), which is absent from `src/`.  Looks up a
direct Conversion record for exactly the requested ordered pair and fails
with `NoConversionPath` when none exists. -/
def rate (convs : List ConversionRec) (a b : Nat) : Except EngineError Int :=
  match convs.find? (fun c => c.from_token_id == a && c.to_token_id == b) with
  | some c => .ok c.rate
  | none => .error .NoConversionPath

/-- Modelled from the spec: Fund Store `getOrCreate(wallet_id, token_id)`
(section 4.1), which is absent from `src/`.  Returns the existing Fund for
the pair or appends a fresh one with balance 0. -/
def getOrCreate (fs : List FundRec) (w t fresh : Nat) : List FundRec × Nat :=
  match fs.find? (fun r => r.wallet_id == w && r.token_id == t) with
  | some r => (fs, r.fid)
  | none => (fs ++ [⟨fresh, w, t, 0⟩], fresh)

/-- Sum of all fund balances. -/
def totalBal (fs : List FundRec) : Int :=
  (fs.map (·.balance)).sum

/-- Fund ids are pairwise distinct (the `id` primary key of the schema). -/
def fidsNodup (fs : List FundRec) : Prop :=
  (fs.map (·.fid)).Nodup

instance (fs : List FundRec) : Decidable (fidsNodup fs) := by
  unfold fidsNodup; infer_instance

/-- A submit request as in spec section 4.3:
`{from_fund_id, to_fund_id, toll_fund_id?, amount, fee, currency_id,
ledger_id, order_id?, type}` (currency and type are opaque here). -/
structure TransactionRequest where
  from_fund_id : Nat
  to_fund_id : Nat
  toll_fund_id : Option Nat
  amount : Int
  fee : Int
  ledger_id : Nat
  order_id : Option Nat
deriving DecidableEq, Repr

/-- A Transaction record as in the `Transaction` model
(`src/app/models/commerce.py` lines 392-411), with the failure reason the
spec's section 7 says is stored alongside the status. -/
structure TransactionRec where
  from_fund_id : Nat
  to_fund_id : Nat
  toll_fund_id : Option Nat
  ledger_id : Nat
  order_id : Option Nat
  amount : Int
  fee : Int
  total_amount : Int
  status : TransactionStatusEnum
  reason : Option EngineError
deriving DecidableEq, Repr

/-- The mutable state the engine acts on: the fund store, the conversion
table and the set of known ledgers. -/
structure EngineState where
  funds : List FundRec
  convs : List ConversionRec
  ledgers : List Nat
deriving DecidableEq, Repr

/-- Build the Transaction row recorded for a request; `total_amount` is
the derived field `amount + fee` of spec section 3. -/
def mkTx (req : TransactionRequest) (s : TransactionStatusEnum)
    (e : Option EngineError) : TransactionRec :=
  ⟨req.from_fund_id, req.to_fund_id, req.toll_fund_id, req.ledger_id,
   req.order_id, req.amount, req.fee, req.amount + req.fee, s, e⟩

/-- Modelled from the spec: the validation `submit` performs before any
mutation (section 4.3): `from != to`, `amount > 0`, `fee >= 0`, all
referenced Funds and the Ledger exist. -/
def validate (st : EngineState) (req : TransactionRequest) : Option EngineError :=
  if req.from_fund_id == req.to_fund_id then some .InvalidRequest
  else if req.amount ≤ 0 then some .InvalidRequest
  else if req.fee < 0 then some .InvalidRequest
  else if (findFund st.funds req.from_fund_id).isNone then some .FundNotFound
  else if (findFund st.funds req.to_fund_id).isNone then some .FundNotFound
  else if (match req.toll_fund_id with
           | some t => (findFund st.funds t).isNone
           | none => false) then some .FundNotFound
  else if !(st.ledgers.contains req.ledger_id) then some .LedgerNotFound
  else none

/-- Modelled from the spec: the amount credited to the destination fund -
the request amount itself when both funds hold the same token, otherwise
the amount multiplied by the direct Conversion rate (section 4.3; the
result is scaled back down by the rate's 10^8 fixed-point scale - the
spec leaves the rounding mode to the implementer). -/
def creditAmount (st : EngineState) (ff tf : FundRec) (amt : Int) :
    Except EngineError Int :=
  if ff.token_id == tf.token_id then .ok amt
  else (rate st.convs ff.token_id tf.token_id).map (fun r => amt * r / rateScale)

/-- Modelled from the spec: Transaction Engine `submit(request)` (section
4.3), which is absent from `src/`.  Validates, resolves conversion, debits
`from_fund` by `amount + fee`, credits `to_fund`, credits the toll fund by
`fee` when one is specified (otherwise the fee is a pure burn), and
records a Transaction whose status is `SUCCESS` or `FAILED`; on any
failure no balance changes. -/
def submit (st : EngineState) (req : TransactionRequest) :
    EngineState × TransactionRec :=
  match validate st req with
  | some e => (st, mkTx req .FAILED (some e))
  | none =>
    match findFund st.funds req.from_fund_id, findFund st.funds req.to_fund_id with
    | some ff, some tf =>
      match creditAmount st ff tf req.amount with
      | .error e => (st, mkTx req .FAILED (some e))
      | .ok ca =>
        match debit st.funds req.from_fund_id (req.amount + req.fee) with
        | .error e => (st, mkTx req .FAILED (some e))
        | .ok fs1 =>
          let fs2 := credit fs1 req.to_fund_id ca
          let fs3 := match req.toll_fund_id with
            | some t => credit fs2 t req.fee
            | none => fs2
          ({ st with funds := fs3 }, mkTx req .SUCCESS none)
    | _, _ => (st, mkTx req .FAILED (some .FundNotFound))

/-- Fold `submit` over a sequence of requests, collecting the recorded
Transactions. -/
def submitAll (st : EngineState) (reqs : List TransactionRequest) :
    EngineState × List TransactionRec :=
  match reqs with
  | [] => (st, [])
  | r :: rs =>
    let p := submit st r
    let q := submitAll p.1 rs
    (q.1, p.2 :: q.2)

/-- The terminal Transaction statuses named by the spec (section 3,
invariant 3). -/
def isTerminalTx (s : TransactionStatusEnum) : Bool :=
  match s with
  | .SUCCESS => true
  | .FAILED => true
  | .CANCELLED => true
  | .REJECTED => true
  | .EXPIRED => true
  | _ => false

/-- Modelled from the spec: the only permitted Transaction status
transition - a Transaction is created `PENDING` and resolved to a terminal
status within the operation that created it, and never mutated afterwards
(section 3, lifecycle).  No transition code exists in `src/`. -/
def txStatusStepAllowed (s t : TransactionStatusEnum) : Bool :=
  s == .PENDING && isTerminalTx t

/-- An Order row as in the `Order` model
(`src/app/models/commerce.py` lines 290-303). -/
structure OrderRec where
  fund_id : Nat
  quantity : Nat
  total_price : Int
  status : OrderStatusEnum
deriving DecidableEq, Repr

/-- Modelled from the spec: the Order the coordinator creates before
submitting, in status `PENDING` with `total_price = price * quantity`
(section 4.4).  No coordinator code exists in `src/`. -/
def initOrder (f q : Nat) (price : Int) : OrderRec :=
  ⟨f, q, price * q, .PENDING⟩

/-- Modelled from the spec: the Order status update driven by the
Transaction outcome - `SUCCESS` completes a pending Order,
`FAILED`/`REJECTED` cancels it, and no other transition is permitted
(section 4.4).  No coordinator code exists in `src/`. -/
def settleOrder (o : OrderStatusEnum) (t : TransactionStatusEnum) : OrderStatusEnum :=
  match o, t with
  | .PENDING, .SUCCESS => .COMPLETED
  | .PENDING, .FAILED => .CANCELLED
  | .PENDING, .REJECTED => .CANCELLED
  | .PENDING, _ => .PENDING
  | s, _ => s

/-- Modelled from the spec: Order/Settlement Coordinator
`placeOrder(buyer_fund_id, listing)` (section 4.4), which is absent from
`src/`.  Creates a `PENDING` Order, submits one Transaction for its total
price, then settles the Order from the Transaction's outcome. -/
def placeOrder (st : EngineState) (buyer seller : Nat) (price : Int)
    (qty : Nat) (ledger : Nat) : EngineState × OrderRec × TransactionRec :=
  let o := initOrder buyer qty price
  let p := submit st ⟨buyer, seller, none, o.total_price, 0, ledger, none⟩
  (p.1, { o with status := settleOrder o.status p.2.status }, p.2)

theorem findFund_mem {fs : List FundRec} {f : Nat} {r : FundRec}
    (h : findFund fs f = some r) : r ∈ fs ∧ r.fid = f := by
  unfold findFund at h
  refine ⟨List.mem_of_find?_eq_some h, ?_⟩
  have := List.find?_some h
  simpa using this

theorem updateBal_shape (fs : List FundRec) (f : Nat) (d : Int) :
    (updateBal fs f d).map (fun r => (r.fid, r.wallet_id, r.token_id)) =
      fs.map (fun r => (r.fid, r.wallet_id, r.token_id)) := by
  unfold updateBal
  rw [List.map_map]
  apply List.map_congr_left
  intro r _
  dsimp only [Function.comp]
  split <;> rfl

theorem updateBal_fids (fs : List FundRec) (f : Nat) (d : Int) :
    (updateBal fs f d).map (·.fid) = fs.map (·.fid) := by
  unfold updateBal
  rw [List.map_map]
  apply List.map_congr_left
  intro r _
  dsimp only [Function.comp]
  split <;> rfl

theorem fidsNodup_updateBal {fs : List FundRec} (f : Nat) (d : Int)
    (h : fidsNodup fs) : fidsNodup (updateBal fs f d) := by
  unfold fidsNodup at h ⊢
  rwa [updateBal_fids]

theorem countP_updateBal (fs : List FundRec) (f g : Nat) (d : Int) :
    (updateBal fs f d).countP (fun r => r.fid == g) =
      fs.countP (fun r => r.fid == g) := by
  unfold updateBal
  rw [List.countP_map]
  congr 1
  funext r
  dsimp only [Function.comp]
  split <;> rfl

theorem totalBal_cons (a : FundRec) (l : List FundRec) :
    totalBal (a :: l) = a.balance + totalBal l := by
  simp [totalBal]

theorem updateBal_cons (a : FundRec) (l : List FundRec) (f : Nat) (d : Int) :
    updateBal (a :: l) f d =
      (if a.fid == f then { a with balance := a.balance + d } else a) ::
        updateBal l f d := by
  simp [updateBal]

theorem totalBal_updateBal (fs : List FundRec) (f : Nat) (d : Int) :
    totalBal (updateBal fs f d) =
      totalBal fs + (fs.countP (fun r => r.fid == f) : Int) * d := by
  induction fs with
  | nil => simp [totalBal, updateBal]
  | cons a l ih =>
    rw [updateBal_cons, totalBal_cons, totalBal_cons, List.countP_cons, ih]
    by_cases h : a.fid = f
    · simp only [h, beq_self_eq_true, if_true]
      push_cast
      ring
    · have hb : (a.fid == f) = false := by simp [h]
      simp only [hb, Bool.false_eq_true, if_false]
      push_cast
      ring

theorem findFund_cons (a : FundRec) (l : List FundRec) (f : Nat) :
    findFund (a :: l) f = if a.fid == f then some a else findFund l f := by
  unfold findFund
  by_cases h : a.fid == f <;> simp [List.find?_cons, h]

theorem findFund_updateBal (fs : List FundRec) (f g : Nat) (d : Int) :
    findFund (updateBal fs f d) g =
      (findFund fs g).map
        (fun r => if r.fid == f then { r with balance := r.balance + d } else r) := by
  unfold updateBal findFund
  rw [List.find?_map]
  have hpred : ((fun r : FundRec => r.fid == g) ∘
      (fun r => if r.fid == f then { r with balance := r.balance + d } else r)) =
      (fun r : FundRec => r.fid == g) := by
    funext r
    dsimp only [Function.comp]
    split <;> rfl
  rw [hpred]

theorem balOf_updateBal_ne {fs : List FundRec} {f g : Nat} (d : Int)
    (h : g ≠ f) : balOf (updateBal fs f d) g = balOf fs g := by
  unfold balOf
  rw [findFund_updateBal]
  cases hf : findFund fs g with
  | none => rfl
  | some r =>
    have hr := (findFund_mem hf).2
    simp [hr, h]

theorem balOf_updateBal_self {fs : List FundRec} {f : Nat} (d : Int) :
    balOf (updateBal fs f d) f = (balOf fs f).map (· + d) := by
  unfold balOf
  rw [findFund_updateBal]
  cases hf : findFund fs f with
  | none => rfl
  | some r =>
    have hr := (findFund_mem hf).2
    simp [hr]

theorem tokenOf_updateBal (fs : List FundRec) (f g : Nat) (d : Int) :
    tokenOf (updateBal fs f d) g = tokenOf fs g := by
  unfold tokenOf
  rw [findFund_updateBal]
  cases hf : findFund fs g with
  | none => rfl
  | some r =>
    simp only [Option.map_some']
    congr 1
    split <;> rfl

theorem countP_eq_one_of_findFund {fs : List FundRec} {f : Nat} {r : FundRec}
    (hnd : fidsNodup fs) (h : findFund fs f = some r) :
    fs.countP (fun x => x.fid == f) = 1 := by
  induction fs with
  | nil => simp [findFund] at h
  | cons a l ih =>
    rw [findFund_cons] at h
    unfold fidsNodup at hnd
    simp only [List.map_cons, List.nodup_cons] at hnd
    by_cases ha : a.fid == f
    · have haf : a.fid = f := by simpa using ha
      have hz : l.countP (fun x => x.fid == f) = 0 := by
        rw [List.countP_eq_zero]
        intro x hx
        simp only [beq_iff_eq]
        intro hxf
        exact hnd.1 (by rw [← haf] at hxf; exact hxf ▸ List.mem_map_of_mem (·.fid) hx)
      simp [List.countP_cons, ha, hz]
    · simp only [ha, Bool.false_eq_true, if_false] at h
      have := ih hnd.2 h
      simp [List.countP_cons, ha, this]

theorem debit_ok_of_le {fs : List FundRec} {f : Nat} {r : FundRec} {a : Int}
    (hf : findFund fs f = some r) (h : a ≤ r.balance) :
    debit fs f a = .ok (updateBal fs f (-a)) := by
  unfold debit
  rw [hf]
  simp [h]

theorem debit_insufficient {fs : List FundRec} {f : Nat} {r : FundRec} {a : Int}
    (hf : findFund fs f = some r) (h : r.balance < a) :
    debit fs f a = .error .InsufficientFunds := by
  unfold debit
  rw [hf]
  simp [not_le.mpr h]

theorem debit_ok_inv {fs fs' : List FundRec} {f : Nat} {a : Int}
    (h : debit fs f a = .ok fs') :
    ∃ r, findFund fs f = some r ∧ a ≤ r.balance ∧ fs' = updateBal fs f (-a) := by
  unfold debit at h
  cases hf : findFund fs f with
  | none => rw [hf] at h; exact absurd h (by simp)
  | some r =>
    rw [hf] at h
    dsimp only at h
    by_cases hle : a ≤ r.balance
    · rw [if_pos hle] at h
      exact ⟨r, rfl, hle, by injection h with h; exact h.symm⟩
    · rw [if_neg hle] at h
      exact absurd h (by simp)

theorem rate_ok_inv {convs : List ConversionRec} {a b : Nat} {r : Int}
    (h : rate convs a b = .ok r) :
    ∃ c ∈ convs, c.from_token_id = a ∧ c.to_token_id = b ∧ c.rate = r := by
  unfold rate at h
  cases hf : convs.find? (fun c => c.from_token_id == a && c.to_token_id == b) with
  | none => rw [hf] at h; exact absurd h (by simp)
  | some c =>
    rw [hf] at h
    have hmem := List.mem_of_find?_eq_some hf
    have hsat := List.find?_some hf
    simp only [Bool.and_eq_true, beq_iff_eq] at hsat
    refine ⟨c, hmem, hsat.1, hsat.2, ?_⟩
    dsimp only at h
    injection h

theorem rate_error_of_absent {convs : List ConversionRec} {a b : Nat}
    (h : ∀ c ∈ convs, ¬(c.from_token_id = a ∧ c.to_token_id = b)) :
    rate convs a b = .error .NoConversionPath := by
  unfold rate
  have hf : convs.find? (fun c => c.from_token_id == a && c.to_token_id == b) = none := by
    rw [List.find?_eq_none]
    intro c hc
    simp only [Bool.and_eq_true, beq_iff_eq]
    exact fun hab => h c hc hab
  rw [hf]

theorem validate_none_inv {st : EngineState} {req : TransactionRequest}
    (h : validate st req = none) :
    req.from_fund_id ≠ req.to_fund_id ∧ 0 < req.amount ∧ 0 ≤ req.fee ∧
    (findFund st.funds req.from_fund_id).isSome = true ∧
    (findFund st.funds req.to_fund_id).isSome = true ∧
    (∀ t, req.toll_fund_id = some t → (findFund st.funds t).isSome = true) ∧
    st.ledgers.contains req.ledger_id = true := by
  unfold validate at h
  split at h
  · exact absurd h (by simp)
  · split at h
    · exact absurd h (by simp)
    · split at h
      · exact absurd h (by simp)
      · split at h
        · exact absurd h (by simp)
        · split at h
          · exact absurd h (by simp)
          · split at h
            · exact absurd h (by simp)
            · split at h
              · exact absurd h (by simp)
              · next h1 h2 h3 h4 h5 h6 h7 =>
                refine ⟨by simpa using h1, by simpa using h2, by simpa using h3,
                  ?_, ?_, ?_, ?_⟩
                · simp only [Option.isNone_iff_eq_none] at h4
                  exact Option.isSome_iff_ne_none.mpr h4
                · simp only [Option.isNone_iff_eq_none] at h5
                  exact Option.isSome_iff_ne_none.mpr h5
                · intro t ht
                  rw [ht] at h6
                  simp only [Option.isNone_iff_eq_none] at h6
                  exact Option.isSome_iff_ne_none.mpr h6
                · simpa using h7

theorem submit_spec (st : EngineState) (req : TransactionRequest) :
    ((submit st req).2.status = .SUCCESS ∨
      ((submit st req).2.status = .FAILED ∧ (submit st req).1 = st)) ∧
    ((submit st req).2.status = .SUCCESS →
      validate st req = none ∧
      ∃ ff tf ca fs1,
        findFund st.funds req.from_fund_id = some ff ∧
        findFund st.funds req.to_fund_id = some tf ∧
        creditAmount st ff tf req.amount = .ok ca ∧
        debit st.funds req.from_fund_id (req.amount + req.fee) = .ok fs1 ∧
        (submit st req).1.funds = (match req.toll_fund_id with
          | some t => credit (credit fs1 req.to_fund_id ca) t req.fee
          | none => credit fs1 req.to_fund_id ca) ∧
        (submit st req).1.convs = st.convs ∧
        (submit st req).1.ledgers = st.ledgers) := by
  unfold submit
  split
  · simp [mkTx]
  · split
    · split
      · simp [mkTx]
      · split
        · simp [mkTx]
        · constructor
          · left; rfl
          · intro _
            refine ⟨by assumption, _, _, _, _, by assumption, by assumption,
              by assumption, by assumption, rfl, rfl, rfl⟩
    · simp [mkTx]

theorem submit_not_success_state {st : EngineState} {req : TransactionRequest}
    (h : (submit st req).2.status ≠ .SUCCESS) : (submit st req).1 = st := by
  rcases (submit_spec st req).1 with hs | ⟨-, hst⟩
  · exact absurd hs h
  · exact hst

theorem submit_fids (st : EngineState) (req : TransactionRequest) :
    (submit st req).1.funds.map (·.fid) = st.funds.map (·.fid) := by
  by_cases hs : (submit st req).2.status = .SUCCESS
  · obtain ⟨-, ff, tf, ca, fs1, -, -, -, hdeb, hfunds, -, -⟩ := (submit_spec st req).2 hs
    obtain ⟨r0, -, -, hfs1⟩ := debit_ok_inv hdeb
    rw [hfunds]
    cases ht : req.toll_fund_id with
    | none =>
      simp only [ht, credit]
      rw [hfs1, updateBal_fids, updateBal_fids]
    | some t =>
      simp only [ht, credit]
      rw [hfs1, updateBal_fids, updateBal_fids, updateBal_fids]
  · rw [submit_not_success_state hs]

theorem fidsNodup_submit {st : EngineState} (req : TransactionRequest)
    (h : fidsNodup st.funds) : fidsNodup (submit st req).1.funds := by
  unfold fidsNodup at h ⊢
  rwa [submit_fids]

theorem tokenOf_submit (st : EngineState) (req : TransactionRequest) (g : Nat) :
    tokenOf (submit st req).1.funds g = tokenOf st.funds g := by
  by_cases hs : (submit st req).2.status = .SUCCESS
  · obtain ⟨-, ff, tf, ca, fs1, -, -, -, hdeb, hfunds, -, -⟩ := (submit_spec st req).2 hs
    obtain ⟨r0, -, -, hfs1⟩ := debit_ok_inv hdeb
    rw [hfunds]
    cases ht : req.toll_fund_id with
    | none =>
      simp only [ht, credit]
      rw [tokenOf_updateBal, hfs1, tokenOf_updateBal]
    | some t =>
      simp only [ht, credit]
      rw [tokenOf_updateBal, tokenOf_updateBal, hfs1, tokenOf_updateBal]
  · rw [submit_not_success_state hs]

theorem submit_convs (st : EngineState) (req : TransactionRequest) :
    (submit st req).1.convs = st.convs := by
  by_cases hs : (submit st req).2.status = .SUCCESS
  · exact ((submit_spec st req).2 hs).2.choose_spec.choose_spec.choose_spec.choose_spec.2.2.2.2.2.1
  · rw [submit_not_success_state hs]

theorem submit_ledgers (st : EngineState) (req : TransactionRequest) :
    (submit st req).1.ledgers = st.ledgers := by
  by_cases hs : (submit st req).2.status = .SUCCESS
  · exact ((submit_spec st req).2 hs).2.choose_spec.choose_spec.choose_spec.choose_spec.2.2.2.2.2.2
  · rw [submit_not_success_state hs]

theorem eq_of_mem_fid {fs : List FundRec} (hnd : fidsNodup fs) {s t : FundRec}
    (hs : s ∈ fs) (ht : t ∈ fs) (h : s.fid = t.fid) : s = t := by
  unfold fidsNodup at hnd
  induction fs with
  | nil => cases hs
  | cons a l ih =>
    simp only [List.map_cons, List.nodup_cons] at hnd
    rcases List.mem_cons.mp hs with rfl | hs' <;>
      rcases List.mem_cons.mp ht with rfl | ht'
    · rfl
    · exfalso
      apply hnd.1
      rw [h]
      exact List.mem_map_of_mem (·.fid) ht'
    · exfalso
      apply hnd.1
      rw [← h]
      exact List.mem_map_of_mem (·.fid) hs'
    · exact ih hnd.2 hs' ht'

theorem mem_updateBal_nonneg {fs : List FundRec} {f : Nat} {d : Int}
    (h : ∀ r ∈ fs, 0 ≤ r.balance) (hd : 0 ≤ d) :
    ∀ r ∈ updateBal fs f d, 0 ≤ r.balance := by
  intro r hr
  unfold updateBal at hr
  obtain ⟨s, hs, rfl⟩ := List.mem_map.mp hr
  split
  · exact add_nonneg (h s hs) hd
  · exact h s hs

theorem debit_nonneg {fs fs' : List FundRec} {f : Nat} {a : Int}
    (hnd : fidsNodup fs) (h : ∀ r ∈ fs, 0 ≤ r.balance)
    (hdeb : debit fs f a = .ok fs') : ∀ r ∈ fs', 0 ≤ r.balance := by
  obtain ⟨r0, hf0, hle, rfl⟩ := debit_ok_inv hdeb
  have hr0 := findFund_mem hf0
  intro r hr
  unfold updateBal at hr
  obtain ⟨s, hs, rfl⟩ := List.mem_map.mp hr
  by_cases hsf : s.fid = f
  · have hse : s = r0 := eq_of_mem_fid hnd hs hr0.1 (by rw [hsf, hr0.2])
    simp only [hsf, beq_self_eq_true, if_true]
    rw [hse]
    linarith
  · have hb : (s.fid == f) = false := by simp [hsf]
    simp only [hb, Bool.false_eq_true, if_false]
    exact h s hs

theorem creditAmount_nonneg {st : EngineState} {ff tf : FundRec} {amt ca : Int}
    (hr : ∀ c ∈ st.convs, 0 ≤ c.rate) (ha : 0 ≤ amt)
    (h : creditAmount st ff tf amt = .ok ca) : 0 ≤ ca := by
  unfold creditAmount at h
  split at h
  · injection h with h
    exact h ▸ ha
  · cases hrt : rate st.convs ff.token_id tf.token_id with
    | error e => rw [hrt] at h; exact absurd h (by simp [Except.map])
    | ok r =>
      rw [hrt] at h
      simp only [Except.map] at h
      injection h with h
      obtain ⟨c, hc, -, -, hcr⟩ := rate_ok_inv hrt
      rw [← h, ← hcr]
      exact Int.ediv_nonneg (mul_nonneg ha (hr c hc)) (by norm_num [rateScale])

theorem submit_nonneg {st : EngineState} (req : TransactionRequest)
    (hnd : fidsNodup st.funds) (h : ∀ r ∈ st.funds, 0 ≤ r.balance)
    (hr : ∀ c ∈ st.convs, 0 ≤ c.rate) :
    ∀ r ∈ (submit st req).1.funds, 0 ≤ r.balance := by
  by_cases hs : (submit st req).2.status = .SUCCESS
  · obtain ⟨hval, ff, tf, ca, fs1, hff, htf, hca, hdeb, hfunds, -, -⟩ :=
      (submit_spec st req).2 hs
    obtain ⟨-, hapos, hfee, -⟩ := validate_none_inv hval
    have hfs1 : ∀ r ∈ fs1, 0 ≤ r.balance := debit_nonneg hnd h hdeb
    have hca0 : 0 ≤ ca := creditAmount_nonneg hr (le_of_lt hapos) hca
    rw [hfunds]
    cases ht : req.toll_fund_id with
    | none =>
      simp only [ht, credit]
      exact mem_updateBal_nonneg hfs1 hca0
    | some t =>
      simp only [ht, credit]
      exact mem_updateBal_nonneg (mem_updateBal_nonneg hfs1 hca0) hfee
  · rw [submit_not_success_state hs]
    exact h

theorem submitAll_cons (st : EngineState) (r : TransactionRequest)
    (rs : List TransactionRequest) :
    submitAll st (r :: rs) =
      ((submitAll (submit st r).1 rs).1,
        (submit st r).2 :: (submitAll (submit st r).1 rs).2) := rfl

theorem submitAll_nonneg (st : EngineState) (reqs : List TransactionRequest)
    (hnd : fidsNodup st.funds) (h : ∀ r ∈ st.funds, 0 ≤ r.balance)
    (hr : ∀ c ∈ st.convs, 0 ≤ c.rate) :
    ∀ r ∈ (submitAll st reqs).1.funds, 0 ≤ r.balance := by
  induction reqs generalizing st with
  | nil => exact h
  | cons q qs ih =>
    rw [submitAll_cons]
    exact ih (submit st q).1 (fidsNodup_submit q hnd)
      (submit_nonneg q hnd h hr) (by rw [submit_convs]; exact hr)

theorem submit_total (st : EngineState) (req : TransactionRequest) :
    (submit st req).2.total_amount = req.amount + req.fee := by
  unfold submit
  split
  · rfl
  · split
    · split
      · rfl
      · split
        · rfl
        · rfl
    · rfl

theorem submit_failed_of_debit_error {st : EngineState} {req : TransactionRequest}
    {e : EngineError}
    (hdeb : debit st.funds req.from_fund_id (req.amount + req.fee) = .error e) :
    (submit st req).2.status = .FAILED ∧ (submit st req).1 = st := by
  rcases (submit_spec st req).1 with hs | hfail
  · obtain ⟨-, ff, tf, ca, fs1, -, -, -, hdeb', -⟩ := (submit_spec st req).2 hs
    rw [hdeb] at hdeb'
    exact absurd hdeb' (by simp)
  · exact hfail

theorem submit_totalBal_success {st : EngineState} {req : TransactionRequest} {t : Nat}
    (hnd : fidsNodup st.funds)
    (ht : req.toll_fund_id = some t)
    (hsame : tokenOf st.funds req.from_fund_id = tokenOf st.funds req.to_fund_id)
    (hs : (submit st req).2.status = .SUCCESS) :
    totalBal (submit st req).1.funds = totalBal st.funds := by
  obtain ⟨hval, ff, tf, ca, fs1, hff, htf, hca, hdeb, hfunds, -, -⟩ :=
    (submit_spec st req).2 hs
  obtain ⟨-, -, -, -, -, htoll, -⟩ := validate_none_inv hval
  obtain ⟨r0, hf0, hle, hfs1⟩ := debit_ok_inv hdeb
  have htok : ff.token_id = tf.token_id := by
    unfold tokenOf at hsame
    rw [hff, htf] at hsame
    simpa using hsame
  have hca' : ca = req.amount := by
    unfold creditAmount at hca
    rw [if_pos (by simp [htok])] at hca
    injection hca with h
    exact h.symm
  obtain ⟨rt, hrt⟩ := Option.isSome_iff_exists.mp (htoll t ht)
  have cF := countP_eq_one_of_findFund hnd hff
  have cT := countP_eq_one_of_findFund hnd htf
  have cL := countP_eq_one_of_findFund hnd hrt
  rw [hfunds]
  simp only [ht, credit]
  rw [hfs1]
  simp only [totalBal_updateBal, countP_updateBal]
  rw [cF, cT, cL, hca']
  push_cast
  ring

theorem submitAll_conservation (st : EngineState) (reqs : List TransactionRequest)
    (hnd : fidsNodup st.funds)
    (htoll : ∀ req ∈ reqs, req.toll_fund_id.isSome = true)
    (hsame : ∀ req ∈ reqs,
      tokenOf st.funds req.from_fund_id = tokenOf st.funds req.to_fund_id)
    (hsucc : ∀ tx ∈ (submitAll st reqs).2, tx.status = .SUCCESS) :
    totalBal (submitAll st reqs).1.funds = totalBal st.funds := by
  induction reqs generalizing st with
  | nil => rfl
  | cons q qs ih =>
    simp only [submitAll_cons] at hsucc ⊢
    have hq : (submit st q).2.status = .SUCCESS :=
      hsucc _ (List.mem_cons_self _ _)
    obtain ⟨tq, htq⟩ :=
      Option.isSome_iff_exists.mp (htoll q (List.mem_cons_self q qs))
    have h1 : totalBal (submit st q).1.funds = totalBal st.funds :=
      submit_totalBal_success hnd htq (hsame q (List.mem_cons_self q qs)) hq
    have h2 := ih ((submit st q).1) (fidsNodup_submit q hnd)
      (fun r hr => htoll r (List.mem_cons_of_mem q hr))
      (fun r hr => by
        rw [tokenOf_submit, tokenOf_submit]
        exact hsame r (List.mem_cons_of_mem q hr))
      (fun tx htx => hsucc tx (List.mem_cons_of_mem _ htx))
    rw [h2, h1]

theorem submit_from_delta {st : EngineState} {req : TransactionRequest}
    (hs : (submit st req).2.status = .SUCCESS)
    (htne : ∀ t, req.toll_fund_id = some t → t ≠ req.from_fund_id) :
    balOf (submit st req).1.funds req.from_fund_id =
      (balOf st.funds req.from_fund_id).map
        (fun b => b - (req.amount + req.fee)) := by
  obtain ⟨hval, ff, tf, ca, fs1, hff, htf, hca, hdeb, hfunds, -, -⟩ :=
    (submit_spec st req).2 hs
  obtain ⟨hne, -, -, -, -, -, -⟩ := validate_none_inv hval
  obtain ⟨r0, hf0, hle, hfs1⟩ := debit_ok_inv hdeb
  rw [hfunds]
  cases ht : req.toll_fund_id with
  | none =>
    simp only [credit]
    rw [balOf_updateBal_ne _ hne, hfs1, balOf_updateBal_self]
    cases balOf st.funds req.from_fund_id <;> simp [sub_eq_add_neg]
  | some t =>
    simp only [credit]
    rw [balOf_updateBal_ne _ (Ne.symm (htne t ht))]
    rw [balOf_updateBal_ne _ hne, hfs1, balOf_updateBal_self]
    cases balOf st.funds req.from_fund_id <;> simp [sub_eq_add_neg]

theorem getOrCreate_found {fs : List FundRec} {w t : Nat} {r : FundRec}
    (fresh : Nat)
    (hf : fs.find? (fun r => r.wallet_id == w && r.token_id == t) = some r) :
    getOrCreate fs w t fresh = (fs, r.fid) := by
  unfold getOrCreate
  rw [hf]

theorem getOrCreate_absent {fs : List FundRec} {w t : Nat} (fresh : Nat)
    (hf : fs.find? (fun r => r.wallet_id == w && r.token_id == t) = none) :
    getOrCreate fs w t fresh = (fs ++ [⟨fresh, w, t, 0⟩], fresh) := by
  unfold getOrCreate
  rw [hf]

/-- C1 (amended): for every sequence of SUCCESS Transactions that each
specify a toll fund and move value between funds holding the same token,
the total of all Fund balances is unchanged (per-transaction, the deltas
across from_fund, to_fund and toll_fund sum to zero); with no toll fund
the fee is burned and the total drops by the fee. -/
theorem conservation_of_success_transactions (st : EngineState)
    (reqs : List TransactionRequest)
    (hnd : fidsNodup st.funds)
    (htoll : ∀ req ∈ reqs, req.toll_fund_id.isSome = true)
    (hsame : ∀ req ∈ reqs,
      tokenOf st.funds req.from_fund_id = tokenOf st.funds req.to_fund_id)
    (hsucc : ∀ tx ∈ (submitAll st reqs).2, tx.status = .SUCCESS) :
    totalBal (submitAll st reqs).1.funds = totalBal st.funds :=
  submitAll_conservation st reqs hnd htoll hsame hsucc

/-- C1 witness: Scenario A shaped sequence (one SUCCESS transaction with a
toll fund, same token) conserves the total balance. -/
theorem conservation_of_success_transactions_witness :
    totalBal (submitAll ⟨[⟨1, 1, 1, 1000000⟩, ⟨2, 2, 1, 1000000⟩, ⟨3, 3, 1, 0⟩], [], [0]⟩
        [⟨1, 2, some 3, 300000, 20000, 0, none⟩]).1.funds =
      totalBal [⟨1, 1, 1, (1000000 : Int)⟩, ⟨2, 2, 1, 1000000⟩, ⟨3, 3, 1, 0⟩] :=
  conservation_of_success_transactions
    ⟨[⟨1, 1, 1, 1000000⟩, ⟨2, 2, 1, 1000000⟩, ⟨3, 3, 1, 0⟩], [], [0]⟩
    [⟨1, 2, some 3, 300000, 20000, 0, none⟩]
    (by decide) (by decide) (by decide) (by decide)

/-- C1 counterexample: two SUCCESS Transactions violate the unconditional
claim.  First, submitted with no toll fund and fee 2.0000, the fee is
burned: the sum of balance deltas is -20000 units, and the total of all
Fund balances drops by the fee with no external withdrawal.  Second, even
with a toll fund, a cross-token transfer at conversion rate 0.5 credits
the destination only half the debited amount: the raw balance deltas sum
to -150000 units and the total drops accordingly. -/
theorem conservation_fails_without_toll_fund_or_same_token :
    ((submit ⟨[⟨1, 1, 1, 1000000⟩, ⟨2, 2, 1, 1000000⟩], [], [0]⟩
        ⟨1, 2, none, 300000, 20000, 0, none⟩).2.status = .SUCCESS ∧
      totalBal (submit ⟨[⟨1, 1, 1, 1000000⟩, ⟨2, 2, 1, 1000000⟩], [], [0]⟩
          ⟨1, 2, none, 300000, 20000, 0, none⟩).1.funds =
        totalBal [⟨1, 1, 1, (1000000 : Int)⟩, ⟨2, 2, 1, 1000000⟩] - 20000 ∧
      totalBal (submit ⟨[⟨1, 1, 1, 1000000⟩, ⟨2, 2, 1, 1000000⟩], [], [0]⟩
          ⟨1, 2, none, 300000, 20000, 0, none⟩).1.funds ≠
        totalBal [⟨1, 1, 1, (1000000 : Int)⟩, ⟨2, 2, 1, 1000000⟩]) ∧
    ((submit ⟨[⟨1, 1, 1, 1000000⟩, ⟨2, 2, 2, 1000000⟩, ⟨3, 3, 1, 0⟩],
          [⟨1, 2, 50000000⟩], [0]⟩
        ⟨1, 2, some 3, 300000, 20000, 0, none⟩).2.status = .SUCCESS ∧
      totalBal (submit ⟨[⟨1, 1, 1, 1000000⟩, ⟨2, 2, 2, 1000000⟩, ⟨3, 3, 1, 0⟩],
            [⟨1, 2, 50000000⟩], [0]⟩
          ⟨1, 2, some 3, 300000, 20000, 0, none⟩).1.funds =
        totalBal [⟨1, 1, 1, (1000000 : Int)⟩, ⟨2, 2, 2, 1000000⟩, ⟨3, 3, 1, 0⟩]
          - 150000 ∧
      totalBal (submit ⟨[⟨1, 1, 1, 1000000⟩, ⟨2, 2, 2, 1000000⟩, ⟨3, 3, 1, 0⟩],
            [⟨1, 2, 50000000⟩], [0]⟩
          ⟨1, 2, some 3, 300000, 20000, 0, none⟩).1.funds ≠
        totalBal [⟨1, 1, 1, (1000000 : Int)⟩, ⟨2, 2, 2, 1000000⟩,
          ⟨3, 3, 1, 0⟩]) := by
  decide

/-- C2: starting from a state with nonnegative balances (and nonnegative
conversion rates), no engine operation makes any Fund balance negative:
every sequence of submits, and any getOrCreate, preserves balance >= 0. -/
theorem fund_balance_nonneg (st : EngineState) (reqs : List TransactionRequest)
    (w t n : Nat)
    (hnd : fidsNodup st.funds)
    (h0 : ∀ r ∈ st.funds, 0 ≤ r.balance)
    (hr : ∀ c ∈ st.convs, 0 ≤ c.rate) :
    (∀ r ∈ (submitAll st reqs).1.funds, 0 ≤ r.balance) ∧
    (∀ r ∈ (getOrCreate st.funds w t n).1, 0 ≤ r.balance) := by
  refine ⟨submitAll_nonneg st reqs hnd h0 hr, ?_⟩
  intro r hrm
  unfold getOrCreate at hrm
  split at hrm
  · exact h0 r hrm
  · rcases List.mem_append.mp hrm with hm | hm
    · exact h0 r hm
    · rw [List.mem_singleton.mp hm]

/-- C2 witness: the Scenario A state keeps all balances nonnegative after
a successful submit. -/
theorem fund_balance_nonneg_witness :
    ((submitAll ⟨[⟨1, 1, 1, 1000000⟩, ⟨2, 2, 1, 1000000⟩, ⟨3, 3, 1, 0⟩], [], [0]⟩
        [⟨1, 2, some 3, 300000, 20000, 0, none⟩]).1.funds.all
      (fun r => decide (0 ≤ r.balance))) = true := by
  have h := (fund_balance_nonneg
    ⟨[⟨1, 1, 1, 1000000⟩, ⟨2, 2, 1, 1000000⟩, ⟨3, 3, 1, 0⟩], [], [0]⟩
    [⟨1, 2, some 3, 300000, 20000, 0, none⟩] 9 9 9
    (by decide) (by decide) (by decide)).1
  exact List.all_eq_true.mpr (fun r hr => decide_eq_true (h r hr))

/-- C3: debit subtracts the amount exactly when the fund's balance covers
it and otherwise fails with InsufficientFunds without mutating, and when
the debit inside submit fails the Transaction is recorded FAILED with no
Fund balance changed. -/
theorem debit_atomicity (fs : List FundRec) (f : Nat) (a : Int) (r : FundRec)
    (st : EngineState) (req : TransactionRequest) (e : EngineError)
    (hf : findFund fs f = some r) :
    (a ≤ r.balance → debit fs f a = .ok (updateBal fs f (-a))) ∧
    (r.balance < a → debit fs f a = .error .InsufficientFunds) ∧
    (debit st.funds req.from_fund_id (req.amount + req.fee) = .error e →
      (submit st req).2.status = .FAILED ∧ (submit st req).1 = st) :=
  ⟨debit_ok_of_le hf, debit_insufficient hf,
    fun hd => submit_failed_of_debit_error hd⟩

/-- C3 witness: Scenario B - balance 10, amount 30, fee 2: the debit of 32
fails with InsufficientFunds, the Transaction is FAILED, and no balance
changes. -/
theorem debit_atomicity_witness :
    debit [⟨1, 1, 1, (100000 : Int)⟩, ⟨2, 2, 1, 1000000⟩, ⟨3, 3, 1, 0⟩] 1 320000 =
      .error .InsufficientFunds ∧
    (submit ⟨[⟨1, 1, 1, 100000⟩, ⟨2, 2, 1, 1000000⟩, ⟨3, 3, 1, 0⟩], [], [0]⟩
        ⟨1, 2, some 3, 300000, 20000, 0, none⟩).2.status = .FAILED ∧
    (submit ⟨[⟨1, 1, 1, 100000⟩, ⟨2, 2, 1, 1000000⟩, ⟨3, 3, 1, 0⟩], [], [0]⟩
        ⟨1, 2, some 3, 300000, 20000, 0, none⟩).1 =
      ⟨[⟨1, 1, 1, 100000⟩, ⟨2, 2, 1, 1000000⟩, ⟨3, 3, 1, 0⟩], [], [0]⟩ := by
  have ha := debit_atomicity
    [⟨1, 1, 1, 100000⟩, ⟨2, 2, 1, 1000000⟩, ⟨3, 3, 1, 0⟩] 1 320000
    ⟨1, 1, 1, 100000⟩ ⟨[⟨1, 1, 1, 100000⟩, ⟨2, 2, 1, 1000000⟩, ⟨3, 3, 1, 0⟩], [], [0]⟩
    ⟨1, 2, some 3, 300000, 20000, 0, none⟩ EngineError.InsufficientFunds rfl
  have hb := debit_atomicity [⟨1, 1, 1, 100000⟩, ⟨2, 2, 1, 1000000⟩, ⟨3, 3, 1, 0⟩] 1
    ((300000 : Int) + 20000)
    ⟨1, 1, 1, 100000⟩ ⟨[⟨1, 1, 1, 100000⟩, ⟨2, 2, 1, 1000000⟩, ⟨3, 3, 1, 0⟩], [], [0]⟩
    ⟨1, 2, some 3, 300000, 20000, 0, none⟩ EngineError.InsufficientFunds rfl
  obtain ⟨h1, h2⟩ := hb.2.2 (hb.2.1 (by norm_num))
  exact ⟨ha.2.1 (by norm_num), h1, h2⟩

/-- C4 counterexample: the funds table as declared carries no uniqueness
constraint on (wallet_id, token_id) - the table-level constraint list is
empty and neither column is individually unique. -/
theorem funds_unique_constraint_absent :
    ¬ (["wallet_id", "token_id"] ∈ fundsTableUniqueConstraints) ∧
    colUnique fundsColumns "wallet_id" = some false ∧
    colUnique fundsColumns "token_id" = some false :=
  ⟨by simp [fundsTableUniqueConstraints], rfl, rfl⟩

/-- C4 (amended): getOrCreate is idempotent - a second call returns
exactly the Fund produced by the first and never creates a duplicate for
the (wallet_id, token_id) pair - but the declared funds table carries no
uniqueness constraint on (wallet_id, token_id). -/
theorem getOrCreate_idempotent (fs : List FundRec) (w t fresh m : Nat) :
    (getOrCreate (getOrCreate fs w t fresh).1 w t m = getOrCreate fs w t fresh) ∧
    (fs.countP (fun r => r.wallet_id == w && r.token_id == t) = 0 →
      (getOrCreate fs w t fresh).1.countP
        (fun r => r.wallet_id == w && r.token_id == t) = 1) ∧
    (0 < fs.countP (fun r => r.wallet_id == w && r.token_id == t) →
      (getOrCreate fs w t fresh).1 = fs) ∧
    fundsTableUniqueConstraints = [] := by
  cases hf : fs.find? (fun r => r.wallet_id == w && r.token_id == t) with
  | some r =>
    refine ⟨?_, ?_, fun _ => ?_, rfl⟩
    · rw [getOrCreate_found fresh hf]
      exact getOrCreate_found m hf
    · intro h0
      have hp := List.find?_some hf
      have := (List.countP_eq_zero.mp h0) r (List.mem_of_find?_eq_some hf)
      exact absurd hp this
    · rw [getOrCreate_found fresh hf]
  | none =>
    have hnew : ((fun r : FundRec => r.wallet_id == w && r.token_id == t)
        ⟨fresh, w, t, 0⟩) = true := by simp
    refine ⟨?_, ?_, ?_, rfl⟩
    · rw [getOrCreate_absent fresh hf]
      have hfind : (fs ++ [(⟨fresh, w, t, 0⟩ : FundRec)]).find?
          (fun r => r.wallet_id == w && r.token_id == t) =
          some ⟨fresh, w, t, 0⟩ := by
        rw [List.find?_append, hf]
        simp
      exact getOrCreate_found m hfind
    · intro h0
      rw [getOrCreate_absent fresh hf]
      simp [List.countP_append, h0, List.countP_cons]
    · intro hpos
      have hall := List.find?_eq_none.mp hf
      have : fs.countP (fun r => r.wallet_id == w && r.token_id == t) = 0 :=
        List.countP_eq_zero.mpr (fun a ha => by
          have := hall a ha
          simpa using this)
      omega
  
/-- C4 witness: starting from an empty store, getOrCreate creates the
(5, 7) Fund once, and a second call returns it without duplicating. -/
theorem getOrCreate_idempotent_witness :
    (getOrCreate (getOrCreate [] 5 7 11).1 5 7 12 = getOrCreate [] 5 7 11) ∧
    (getOrCreate [] 5 7 11).1.countP
      (fun r => r.wallet_id == 5 && r.token_id == 7) = 1 := by
  have h := getOrCreate_idempotent [] 5 7 11 12
  exact ⟨h.1, h.2.1 (by decide)⟩

/-- C5: for every successful submit the stored total_amount equals
amount + fee and equals the amount actually removed from from_fund (when
the toll fund is not the from fund itself, which would re-credit it). -/
theorem total_amount_derived (st : EngineState) (req : TransactionRequest)
    (b : Int)
    (hs : (submit st req).2.status = .SUCCESS)
    (htne : ∀ t, req.toll_fund_id = some t → t ≠ req.from_fund_id)
    (hb : balOf st.funds req.from_fund_id = some b) :
    (submit st req).2.total_amount = req.amount + req.fee ∧
    balOf (submit st req).1.funds req.from_fund_id =
      some (b - (submit st req).2.total_amount) := by
  refine ⟨submit_total st req, ?_⟩
  rw [submit_total st req, submit_from_delta hs htne, hb]
  rfl

/-- C5 witness: Scenario A - from fund at 100.0000 (1000000 units),
amount 30, fee 2, toll fund given: status SUCCESS, total_amount 32.0000,
from fund left at 68.0000, to fund at 130.0000, toll fund credited
2.0000. -/
theorem total_amount_derived_witness :
    (submit ⟨[⟨1, 1, 1, 1000000⟩, ⟨2, 2, 1, 1000000⟩, ⟨3, 3, 1, 0⟩], [], [0]⟩
        ⟨1, 2, some 3, 300000, 20000, 0, none⟩).2.status = .SUCCESS ∧
    (submit ⟨[⟨1, 1, 1, 1000000⟩, ⟨2, 2, 1, 1000000⟩, ⟨3, 3, 1, 0⟩], [], [0]⟩
        ⟨1, 2, some 3, 300000, 20000, 0, none⟩).2.total_amount = 320000 ∧
    balOf (submit ⟨[⟨1, 1, 1, 1000000⟩, ⟨2, 2, 1, 1000000⟩, ⟨3, 3, 1, 0⟩], [], [0]⟩
        ⟨1, 2, some 3, 300000, 20000, 0, none⟩).1.funds 1 = some 680000 ∧
    balOf (submit ⟨[⟨1, 1, 1, 1000000⟩, ⟨2, 2, 1, 1000000⟩, ⟨3, 3, 1, 0⟩], [], [0]⟩
        ⟨1, 2, some 3, 300000, 20000, 0, none⟩).1.funds 2 = some 1300000 ∧
    balOf (submit ⟨[⟨1, 1, 1, 1000000⟩, ⟨2, 2, 1, 1000000⟩, ⟨3, 3, 1, 0⟩], [], [0]⟩
        ⟨1, 2, some 3, 300000, 20000, 0, none⟩).1.funds 3 = some 20000 := by
  have h := total_amount_derived
    ⟨[⟨1, 1, 1, 1000000⟩, ⟨2, 2, 1, 1000000⟩, ⟨3, 3, 1, 0⟩], [], [0]⟩
    ⟨1, 2, some 3, 300000, 20000, 0, none⟩ 1000000
    (by decide)
    (by intro t ht; injection ht with ht; subst ht; decide)
    rfl
  refine ⟨by decide, ?_, ?_, by decide, by decide⟩
  · rw [h.1]
    decide
  · rw [h.2, h.1]
    decide

/-- C6 counterexample: the Transaction schema declares `toll_fund` (there
is no `toll_fund_id` column) without `nullable=True` and with a
non-Optional annotation, so it is NOT NULL - a Transaction row cannot be
created with no toll fund. -/
theorem toll_fund_not_nullable :
    colNullable transactionsColumns "toll_fund" = some false ∧
    colNullable transactionsColumns "toll_fund_id" = none :=
  ⟨rfl, rfl⟩

/-- C6 (amended): order_id is optional (nullable) but the toll_fund
column is declared non-nullable, so every Transaction row requires a toll
fund; in the spec-modelled engine a request without a toll fund burns the
fee - no fund other than from_fund and to_fund changes balance. -/
theorem toll_fund_required_fee_burn (st : EngineState)
    (req : TransactionRequest) (g : Nat)
    (hnone : req.toll_fund_id = none)
    (hg1 : g ≠ req.from_fund_id) (hg2 : g ≠ req.to_fund_id) :
    colNullable transactionsColumns "order_id" = some true ∧
    colNullable transactionsColumns "toll_fund" = some false ∧
    balOf (submit st req).1.funds g = balOf st.funds g := by
  refine ⟨rfl, rfl, ?_⟩
  by_cases hs : (submit st req).2.status = .SUCCESS
  · obtain ⟨-, ff, tf, ca, fs1, -, -, -, hdeb, hfunds, -, -⟩ :=
      (submit_spec st req).2 hs
    obtain ⟨r0, -, -, hfs1⟩ := debit_ok_inv hdeb
    rw [hfunds]
    simp only [hnone, credit]
    rw [balOf_updateBal_ne _ hg2, hfs1, balOf_updateBal_ne _ hg1]
  · rw [submit_not_success_state hs]

/-- C6 witness: a successful toll-free submit leaves the bystander fund 3
untouched - the fee is credited to no Fund. -/
theorem toll_fund_required_fee_burn_witness :
    colNullable transactionsColumns "order_id" = some true ∧
    balOf (submit ⟨[⟨1, 1, 1, 1000000⟩, ⟨2, 2, 1, 1000000⟩, ⟨3, 3, 1, 50000⟩], [], [0]⟩
        ⟨1, 2, none, 300000, 20000, 0, none⟩).1.funds 3 = some 50000 := by
  have h := toll_fund_required_fee_burn
    ⟨[⟨1, 1, 1, 1000000⟩, ⟨2, 2, 1, 1000000⟩, ⟨3, 3, 1, 50000⟩], [], [0]⟩
    ⟨1, 2, none, 300000, 20000, 0, none⟩ 3 rfl (by decide) (by decide)
  exact ⟨h.1, by rw [h.2.2]; decide⟩

theorem txStep_false_of_terminal {s : TransactionStatusEnum}
    (t : TransactionStatusEnum) (hs : isTerminalTx s = true) :
    txStatusStepAllowed s t = false := by
  cases s <;> simp_all [txStatusStepAllowed, isTerminalTx]

/-- C7: once a Transaction status is terminal (SUCCESS, FAILED,
CANCELLED, REJECTED or EXPIRED) no permitted transition leaves it - a
single step out of a terminal status is never allowed, and anything
reachable from a terminal status by permitted steps is the status
itself. -/
theorem terminal_status_absorbing (s t : TransactionStatusEnum)
    (hs : isTerminalTx s = true) :
    txStatusStepAllowed s t = false ∧
    (∀ u, Relation.ReflTransGen
      (fun a b => txStatusStepAllowed a b = true) s u → u = s) := by
  refine ⟨txStep_false_of_terminal t hs, ?_⟩
  intro u hu
  induction hu with
  | refl => rfl
  | tail h1 h2 ih =>
    rw [ih, txStep_false_of_terminal _ hs] at h2
    exact absurd h2 (by simp)

/-- C7 witness: SUCCESS is terminal - no step out of it is allowed, not
even to REFUNDED. -/
theorem terminal_status_absorbing_witness :
    txStatusStepAllowed .SUCCESS .REFUNDED = false :=
  (terminal_status_absorbing .SUCCESS .REFUNDED (by decide)).1

/-- C8: every Order is created PENDING; a SUCCESS transaction completes a
pending Order, FAILED or REJECTED cancels it, COMPLETED and CANCELLED are
terminal, and no other transition ever occurs; placeOrder settles the
PENDING order it created from its transaction's outcome. -/
theorem order_state_machine :
    (∀ f q p, (initOrder f q p).status = .PENDING) ∧
    settleOrder .PENDING .SUCCESS = .COMPLETED ∧
    settleOrder .PENDING .FAILED = .CANCELLED ∧
    settleOrder .PENDING .REJECTED = .CANCELLED ∧
    (∀ o t, o ≠ .PENDING → settleOrder o t = o) ∧
    (∀ o t, settleOrder o t ≠ o →
      o = .PENDING ∧
        (settleOrder o t = .COMPLETED ∨ settleOrder o t = .CANCELLED)) ∧
    (∀ st b s p q l, (placeOrder st b s p q l).2.1.status =
      settleOrder .PENDING (placeOrder st b s p q l).2.2.status) := by
  refine ⟨fun f q p => rfl, rfl, rfl, rfl, ?_, ?_, fun st b s p q l => rfl⟩
  · intro o t ho
    cases o
    · exact absurd rfl ho
    · rfl
    · rfl
  · intro o t hne
    cases o
    · refine ⟨rfl, ?_⟩
      cases t <;> first
        | exact Or.inl rfl
        | exact Or.inr rfl
        | exact absurd rfl hne
    · exact absurd rfl hne
    · exact absurd rfl hne

/-- C8 witness: Scenario D - placeOrder with a sufficient buyer fund
completes the order, with an insufficient one cancels it; a COMPLETED
order never changes again. -/
theorem order_state_machine_witness :
    settleOrder .COMPLETED .SUCCESS = .COMPLETED ∧
    (placeOrder ⟨[⟨1, 1, 1, 1000000⟩, ⟨2, 2, 1, 1000000⟩], [], [0]⟩
      1 2 300000 1 0).2.1.status = .COMPLETED ∧
    (placeOrder ⟨[⟨1, 1, 1, 100000⟩, ⟨2, 2, 1, 1000000⟩], [], [0]⟩
      1 2 300000 1 0).2.1.status = .CANCELLED :=
  ⟨order_state_machine.2.2.2.2.1 .COMPLETED .SUCCESS (by decide),
    by decide, by decide⟩

/-- C9: rate returns exactly the stored rate of a Conversion record for
the requested ordered pair - never a reciprocal - and returns
NoConversionPath when no record exists for that ordered pair. -/
theorem rate_direct_lookup (convs : List ConversionRec) (a b : Nat) (r : Int) :
    (rate convs a b = .ok r →
      ∃ c ∈ convs, c.from_token_id = a ∧ c.to_token_id = b ∧ c.rate = r) ∧
    ((∀ c ∈ convs, ¬(c.from_token_id = a ∧ c.to_token_id = b)) →
      rate convs a b = .error .NoConversionPath) :=
  ⟨rate_ok_inv, rate_error_of_absent⟩

/-- C9 witness: with only the reverse record (2 to 1) stored, looking up
the rate from 1 to 2 is a NoConversionPath error, not the reciprocal. -/
theorem rate_direct_lookup_witness :
    rate [⟨2, 1, 50000000⟩] 1 2 = .error .NoConversionPath :=
  (rate_direct_lookup [⟨2, 1, 50000000⟩] 1 2 0).2 (by decide)

/-- C10: the Wallet.funds relationship is declared scalar (not a
collection), so in the embedded schema a Wallet row is associated with at
most one Fund across all tokens. -/
theorem wallet_funds_scalar :
    findRel "Wallet" "funds" = some ⟨"Wallet", "funds", "Fund", false⟩ ∧
    (∀ w : WalletRow, (walletFundIds w).length ≤ 1) := by
  refine ⟨rfl, fun w => ?_⟩
  unfold walletFundIds
  cases w.funds <;> simp
